import Mathlib

/-!
# Model of the upload-store / CSV-preview backend (`src/main.py`)

Filenames and file contents are modelled as lists of characters (the service
reads and writes files as streams of single-byte/char units, and every content
appearing below is plain ASCII, so bytes are identified with characters).
The uploads directory is modelled as a flat map from stored names to contents.

The model covers:
* `_save` (the inner function of the `/api/upload` handler): filename
  sanitization, stored-name computation, writing the content, and the returned
  metadata (`save` below);
* the static `/files/{storedName}` retrieval route (`serveFile` below);
* the `/api/csv/preview` handler (`csv_preview` below), including the
  delimiter sniffer of CPython's `csv.Sniffer` and the record parser of
  CPython's `csv.reader` for the default dialect, which the handler calls.
-/

/-- `os.path.basename` for POSIX paths: everything after the last `'/'`. -/
def posixBasename (p : List Char) : List Char :=
  (p.reverse.takeWhile (fun c => c ≠ '/')).reverse

/-- `str.replace(" ", "_")`: the pattern is a single character, so the
replacement is a character-wise map. -/
def replaceSpaces (s : List Char) : List Char :=
  s.map (fun c => if c = ' ' then '_' else c)

/-- The uploads directory: a flat map from file names to file contents. -/
abbrev Fs : Type := List Char → Option (List Char)

/-- A directory with no files. -/
def Fs.empty : Fs := fun _ => none

/-- Create or truncate the file named `n`, writing content `c` (the
`open(target_path, "wb"); f.write(contents)` step). -/
def Fs.write (fs : Fs) (n c : List Char) : Fs :=
  fun m => if m = n then some c else fs m

/-- The metadata dictionary returned by `_save`. -/
structure SaveResult where
  filename : List Char
  stored_as : List Char
  size : Nat
  url : List Char
deriving DecidableEq, Repr

/-- The URL route under which the uploads directory is served
(`app.mount("/files", ...)`). -/
def filesRoute : List Char := ['/', 'f', 'i', 'l', 'e', 's', '/']

/-- `_save(file, label)` from `src/main.py`.  `fname` is `file.filename`, with
`[]` standing for a missing or empty filename (both are falsy in
`file.filename or label`).  Returns the updated directory and the metadata. -/
def save (fs : Fs) (label fname content : List Char) : Fs × SaveResult :=
  let original_name := posixBasename (if fname = [] then label else fname)
  let name_without_spaces := replaceSpaces original_name
  let target_name := label ++ '_' :: '_' :: name_without_spaces
  let fs2 := Fs.write fs target_name content
  (fs2, { filename := original_name, stored_as := target_name,
          size := content.length, url := filesRoute ++ target_name })

/-- The static-files collaborator: a GET on `/files/{name}` returns the file
named `name` in the uploads directory, if any. -/
def serveFile (fs : Fs) (url : List Char) : Option (List Char) :=
  if url.take 7 = filesRoute then fs (url.drop 7) else none

/-! ## The delimiter sniffer (`csv.Sniffer`, CPython `csv.py`)

`csv_preview` calls `csv.Sniffer().sniff(sample)` when no delimiter was
supplied.  `sniff` first runs a quote-based guess, which finds a delimiter only
when the sample contains a quoted field; on samples without quote characters
(all samples considered in the theorems below) it finds nothing and `sniff`
falls through to the frequency-based `_guess_delimiter`, modelled here.
`sniff` raises `csv.Error` when no delimiter is found; that outcome is `none`.

The source computes `v[1]/total >= consistency` in floating point, where
`consistency` steps through 1.00, 0.99, …, 0.90.  It is modelled exactly over
the integers by cross-multiplication: `v[1] * 100 >= level * total` with
`level` stepping through 100, 99, …, 90 (all the samples evaluated below
meet or miss the bound with an exact ratio, where float and exact arithmetic
agree).  The `charFrequency`, `modes` and `delims` dicts are modelled as
association lists in insertion order, exactly as Python dicts iterate. -/

/-- `data.split('\n')`. -/
def splitNl : List Char → List (List Char)
  | [] => [[]]
  | c :: rest =>
    if c = '\n' then [] :: splitNl rest
    else
      match splitNl rest with
      | [] => [[c]]
      | l :: ls => (c :: l) :: ls

/-- The 7-bit ASCII candidate characters (`[chr(c) for c in range(127)]`). -/
def asciiChars : List Char := (List.range 127).map Char.ofNat

/-- `self.preferred` of `csv.Sniffer`. -/
def preferredDelims : List Char := [',', '\t', ';', ' ', ':']

/-- The items of the meta-frequency dict `charFrequency[c]` for the processed
lines: each distinct per-line count of `c`, in first-appearance order (dict
insertion order), paired with the number of lines having that count. -/
def metaItems (lines : List (List Char)) (c : Char) : List (Nat × Nat) :=
  let freqs := lines.map (fun l => l.count c)
  freqs.eraseDups.map (fun k => (k, freqs.count k))

/-- Python `max(items, key=lambda x: x[1])`: the first item with the maximal
second component. -/
def maxBySnd (x : Nat × Nat) (xs : List (Nat × Nat)) : Nat × Nat :=
  xs.foldl (fun best y => if best.2 < y.2 then y else best) x

/-- The mode of a meta-frequency item list, adjusted by subtracting the other
frequencies (`modes[char] = (m[0], m[1] - sum(other counts))`; the adjusted
count can go negative, hence `Int`). -/
def adjustedMode (items : List (Nat × Nat)) : Nat × Int :=
  match items with
  | [] => (0, 0)
  | x :: xs =>
    match xs with
    | [] => (x.1, (x.2 : Int))
    | _ =>
      let m := maxBySnd x xs
      (m.1, (m.2 : Int) - (((items.map (fun p => p.2)).sum : Int) - (m.2 : Int)))

/-- One `modes[char]` update from the accumulated meta-frequency of `c` over
`lines`; a single item with frequency key 0 leaves the previous value
(the `continue` branch). -/
def modeUpdate (lines : List (List Char)) (old : Option (Nat × Int)) (c : Char) :
    Option (Nat × Int) :=
  match metaItems lines c with
  | [] => old
  | [(0, _)] => old
  | items => some (adjustedMode items)

/-- The `modes` / `delims` dicts: association lists in insertion order. -/
abbrev CharDict : Type := List (Char × (Nat × Int))

/-- `d[k] = v` on a dict: overwrite in place or append. -/
def dictSet (d : CharDict) (k : Char) (v : Nat × Int) : CharDict :=
  if (d.lookup k).isSome then d.map (fun p => if p.1 = k then (k, v) else p)
  else d ++ [(k, v)]

/-- Recompute `modes` from the accumulated `charFrequency` over the processed
lines (`for char in charFrequency.keys(): ...`, the keys being the ASCII
candidates), keeping the previous entry where the loop `continue`s. -/
def modesFor (processed : List (List Char)) (old : CharDict) : CharDict :=
  asciiChars.filterMap (fun c =>
    (modeUpdate processed (old.lookup c) c).map (fun v => (c, v)))

/-- One pass of `for k, v in modeList: ...` adding to `delims` every candidate
whose adjusted mode meets the consistency `level` (percent):
`v[0] > 0 and v[1] > 0 and v[1]/total >= consistency`. -/
def delimsPass (modeList : CharDict) (total level : Nat) (delims : CharDict) :
    CharDict :=
  modeList.foldl
    (fun d kv =>
      if 0 < kv.2.1 ∧ 0 < kv.2.2 ∧ (level : Int) * (total : Int) ≤ kv.2.2 * 100 then
        dictSet d kv.1 kv.2
      else d)
    delims

/-- The `while len(delims) == 0 and consistency >= threshold` loop: levels
100 %, 99 %, …, 90 %, stopping as soon as `delims` is non-empty. -/
def runConsistency (modeList : CharDict) (total : Nat) (delims : CharDict) :
    CharDict :=
  ((List.range 11).map (fun i => 100 - i)).foldl
    (fun d level => if d.length = 0 then delimsPass modeList total level d else d)
    delims

/-- Python tuple order on `((freq, adjusted), char)`, used by `items.sort()`. -/
def itemLt (a b : (Nat × Int) × Char) : Bool :=
  decide (a.1.1 < b.1.1 ∨ (a.1.1 = b.1.1 ∧
    (a.1.2 < b.1.2 ∨ (a.1.2 = b.1.2 ∧ a.2 < b.2))))

/-- `items = [(v,k) for (k,v) in delims.items()]; items.sort(); items[-1][1]`:
the maximal `((freq, adjusted), char)`. -/
def pickMax : List ((Nat × Int) × Char) → Option Char
  | [] => none
  | x :: xs => some ((xs.foldl (fun best y => if itemLt best y then y else best) x).2)

/-- The chunked `while start < len(data)` loop of `_guess_delimiter`.
`Sum.inl c` is the early `return` on `len(delims) == 1`; `Sum.inr delims` is
falling off the loop.  `fuel` starts at `data.length`, which bounds the number
of iterations since each advances `start` by `chunkLength ≥ 1`. -/
def chunkLoop (data : List (List Char)) (chunkLength : Nat)
    (modes delims : CharDict) (start iteration fuel : Nat) : Sum Char CharDict :=
  match fuel with
  | 0 => Sum.inr delims
  | fuel + 1 =>
    if start < data.length then
      let iter2 := iteration + 1
      let processed := data.take (start + chunkLength)
      let modes2 := modesFor processed modes
      let total := min (chunkLength * iter2) data.length
      let delims2 := runConsistency modes2 total delims
      if delims2.length = 1 then
        match delims2 with
        | (c, _) :: _ => Sum.inl c
        | [] => Sum.inr delims2
      else
        chunkLoop data chunkLength modes2 delims2 (start + chunkLength) iter2 fuel
    else Sum.inr delims

/-- `csv.Sniffer()._guess_delimiter(sample, None)`; `none` stands for the
empty-string result that makes `sniff` raise `csv.Error`. -/
def guessDelimiter (sample : List Char) : Option Char :=
  let data := (splitNl sample).filter (fun l => l ≠ [])
  let chunkLength := min 10 data.length
  match chunkLoop data chunkLength [] [] 0 0 data.length with
  | Sum.inl c => some c
  | Sum.inr delims =>
    if delims.length = 0 then none
    else if 1 < delims.length then
      match preferredDelims.find? (fun c => (delims.lookup c).isSome) with
      | some c => some c
      | none => pickMax (delims.map (fun p => (p.2, p.1)))
    else pickMax (delims.map (fun p => (p.2, p.1)))

/-- `csv.Sniffer().sniff(sample).delimiter`; `none` when `csv.Error`
("Could not determine delimiter") is raised. -/
def sniff (sample : List Char) : Option Char := guessDelimiter sample

/-! ## The record parser (`csv.reader`, default dialect)

The reader is modelled as a state machine over the whole character stream,
equivalent to CPython's per-line machine for a file opened with
`newline=""`: records end at `'\n'`, `'\r'` or `'\r\n'` outside quotes, a
blank line yields an empty record, quoted fields (`'"'`, doublequote) may
contain delimiters and newline characters, and with `strict=False` an
unterminated quoted field at end of input still yields its record.  The
(128 KiB) field-size limit is not modelled. -/

/-- Parser states: at a record start, just after a record-ending `'\r'`
(a following `'\n'` belongs to the same `"\r\n"` terminator), expecting a
field (after a delimiter), inside an unquoted field, inside a quoted field, or
just after a quote character inside a quoted field. -/
inductive CsvMode
  | recordStart
  | afterCr
  | fieldStart
  | inField
  | inQuoted
  | quoteInQuoted
deriving DecidableEq, Repr

/-- The state machine of `csv.reader`.  `fields` are the completed fields of
the current record, `field` the characters of the current field. -/
def csvParseAux (delim : Char) (mode : CsvMode)
    (fields : List (List Char)) (field : List Char) :
    List Char → List (List (List Char))
  | [] =>
    match mode with
    | CsvMode.recordStart => []
    | CsvMode.afterCr => []
    | _ => [fields ++ [field]]
  | c :: rest =>
    match mode with
    | CsvMode.recordStart =>
      if c = '\n' then
        fields :: csvParseAux delim CsvMode.recordStart [] [] rest
      else if c = '\r' then
        fields :: csvParseAux delim CsvMode.afterCr [] [] rest
      else if c = '"' then
        csvParseAux delim CsvMode.inQuoted fields field rest
      else if c = delim then
        csvParseAux delim CsvMode.fieldStart (fields ++ [field]) [] rest
      else
        csvParseAux delim CsvMode.inField fields (field ++ [c]) rest
    | CsvMode.afterCr =>
      if c = '\n' then
        csvParseAux delim CsvMode.recordStart [] [] rest
      else if c = '\r' then
        fields :: csvParseAux delim CsvMode.afterCr [] [] rest
      else if c = '"' then
        csvParseAux delim CsvMode.inQuoted fields field rest
      else if c = delim then
        csvParseAux delim CsvMode.fieldStart (fields ++ [field]) [] rest
      else
        csvParseAux delim CsvMode.inField fields (field ++ [c]) rest
    | CsvMode.fieldStart =>
      if c = '\n' then
        (fields ++ [field]) :: csvParseAux delim CsvMode.recordStart [] [] rest
      else if c = '\r' then
        (fields ++ [field]) :: csvParseAux delim CsvMode.afterCr [] [] rest
      else if c = '"' then
        csvParseAux delim CsvMode.inQuoted fields field rest
      else if c = delim then
        csvParseAux delim CsvMode.fieldStart (fields ++ [field]) [] rest
      else
        csvParseAux delim CsvMode.inField fields (field ++ [c]) rest
    | CsvMode.inField =>
      if c = '\n' then
        (fields ++ [field]) :: csvParseAux delim CsvMode.recordStart [] [] rest
      else if c = '\r' then
        (fields ++ [field]) :: csvParseAux delim CsvMode.afterCr [] [] rest
      else if c = delim then
        csvParseAux delim CsvMode.fieldStart (fields ++ [field]) [] rest
      else
        csvParseAux delim CsvMode.inField fields (field ++ [c]) rest
    | CsvMode.inQuoted =>
      if c = '"' then
        csvParseAux delim CsvMode.quoteInQuoted fields field rest
      else
        csvParseAux delim CsvMode.inQuoted fields (field ++ [c]) rest
    | CsvMode.quoteInQuoted =>
      if c = '"' then
        csvParseAux delim CsvMode.inQuoted fields (field ++ ['"']) rest
      else if c = delim then
        csvParseAux delim CsvMode.fieldStart (fields ++ [field]) [] rest
      else if c = '\n' then
        (fields ++ [field]) :: csvParseAux delim CsvMode.recordStart [] [] rest
      else if c = '\r' then
        (fields ++ [field]) :: csvParseAux delim CsvMode.afterCr [] [] rest
      else
        csvParseAux delim CsvMode.inField fields (field ++ [c]) rest

/-- All records `csv.reader` yields on `content` with delimiter `delim`. -/
def csvParse (delim : Char) (content : List Char) : List (List (List Char)) :=
  csvParseAux delim CsvMode.recordStart [] [] content

/-! ## The preview handler (`/api/csv/preview`) -/

/-- The failure outcomes of `csv_preview`.  `notFound` is the explicit
`HTTPException(status_code=404)`; `detectionError` is the `csv.Error` of the
sniffer, and `badDelimiter` the `TypeError` of `csv.reader` on a delimiter
that is not exactly one character — both are uncaught exceptions, turned into
a generic HTTP 500 response by the framework. -/
inductive PreviewError
  | notFound
  | detectionError
  | badDelimiter
deriving DecidableEq, Repr

/-- The HTTP status the caller observes for each failure. -/
def PreviewError.status : PreviewError → Nat
  | PreviewError.notFound => 404
  | PreviewError.detectionError => 500
  | PreviewError.badDelimiter => 500

/-- A status in the client-error range. -/
def isClientError (s : Nat) : Prop := 400 ≤ s ∧ s < 500

/-- The `CsvPreviewResponse` model. -/
structure PreviewResponse where
  filename : List Char
  delimiter : List Char
  headers : List (List Char)
  rows : List (List (List Char))
  total_preview_rows : Nat
deriving DecidableEq, Repr

/-- The parse-and-assemble part of the handler once the delimiter character
`d` is fixed (`delimStr` is the `delimiter` string put in the response):
`headers = next(reader)` (or `[]` on `StopIteration`), then up to `max_lines`
further rows (`for i, row in enumerate(reader): if i >= max_lines: break`),
and `total_preview_rows = len(rows)`. -/
def previewBody (base delimStr : List Char) (d : Char) (content : List Char)
    (max_lines : Int) : PreviewResponse :=
  let records := csvParse d content
  let headers := records.headD []
  let rows := (records.drop 1).take max_lines.toNat
  { filename := base, delimiter := delimStr, headers := headers,
    rows := rows, total_preview_rows := rows.length }

/-- `csv_preview(req)` from `src/main.py`.  `delimiter` is the optional
request field (`none` = absent); `not req.delimiter` is true both for an
absent field and for the empty string, in which case the sniffer runs on the
first 8192 characters.  A supplied delimiter is used as-is and must be exactly
one character for `csv.reader` to accept it. -/
def csv_preview (fs : Fs) (filename : List Char) (delimiter : Option (List Char))
    (max_lines : Int) : Except PreviewError PreviewResponse :=
  let base := posixBasename filename
  match fs base with
  | none => Except.error PreviewError.notFound
  | some content =>
    let sample := content.take 8192
    let dOpt : Option (List Char) :=
      match delimiter with
      | none => none
      | some [] => none
      | some d => some d
    match dOpt with
    | none =>
      match sniff sample with
      | none => Except.error PreviewError.detectionError
      | some c => Except.ok (previewBody base [c] c content max_lines)
    | some d =>
      match d with
      | [c] => Except.ok (previewBody base d c content max_lines)
      | _ => Except.error PreviewError.badDelimiter

/-- Does a character list contain the two-character sequence `".."`? -/
def hasDotDot : List Char → Bool
  | [] => false
  | '.' :: '.' :: _ => true
  | _ :: rest => hasDotDot rest

/-- The sanitization exactly as the specification words it: basename first,
then substitute the label if the result is empty, then replace spaces. -/
def specSanitize (label fname : List Char) : List Char :=
  let base := posixBasename fname
  let base2 := if base = [] then label else base
  replaceSpaces base2

/-! ## Shared concrete inputs -/

/-- The label of the `csv` upload part. -/
def demoLabel : List Char := ['c', 's', 'v']

/-- The specification's example upload content, 12 characters. -/
def demoContent : List Char := "a,b\n1,2\n3,4\n".toList

/-- The stored name the example upload produces. -/
def demoStored : List Char := "csv__My_Data.csv".toList

/-- The example upload: label `"csv"`, filename `"My Data.csv"`. -/
def demoSave : Fs × SaveResult := save Fs.empty demoLabel "My Data.csv".toList demoContent

/-- The preview response for the example upload. -/
def demoResponse : PreviewResponse :=
  { filename := demoStored, delimiter := [','],
    headers := [['a'], ['b']],
    rows := [[['1'], ['2']], [['3'], ['4']]],
    total_preview_rows := 2 }

/-! ## Helper lemmas -/

theorem slash_not_mem_posixBasename (p : List Char) : '/' ∉ posixBasename p := by
  intro h
  rw [posixBasename, List.mem_reverse] at h
  have h2 := List.mem_takeWhile_imp h
  simp at h2

theorem posixBasename_eq_self (p : List Char) (h : '/' ∉ p) : posixBasename p = p := by
  rw [posixBasename]
  have h2 : p.reverse.takeWhile (fun c => c ≠ '/') = p.reverse := by
    apply List.takeWhile_eq_self_iff.mpr
    intro x hx
    simp only [ne_eq, decide_eq_true_eq]
    intro hxe
    subst hxe
    exact h (List.mem_reverse.mp hx)
  rw [h2, List.reverse_reverse]

theorem posixBasename_idem (p : List Char) :
    posixBasename (posixBasename p) = posixBasename p :=
  posixBasename_eq_self _ (slash_not_mem_posixBasename p)

theorem slash_mem_of_mem_replaceSpaces (s : List Char) (h : '/' ∈ replaceSpaces s) :
    '/' ∈ s := by
  rw [replaceSpaces] at h
  obtain ⟨c, hc, he⟩ := List.mem_map.mp h
  by_cases hsp : c = ' '
  · subst hsp; simp at he
  · rw [if_neg hsp] at he; exact he ▸ hc

theorem posixBasename_append_slash (q : List Char) : posixBasename (q ++ ['/']) = [] := by
  rw [posixBasename, List.reverse_append]
  simp [List.takeWhile]

/-- Whenever the preview lookup succeeds, `csv_preview` either answers with a
`previewBody` for a single delimiter character, or fails with the sniffer's
detection error, or fails on a delimiter that is not one character. -/
theorem csv_preview_eq_cases (fs : Fs) (name : List Char) (delim : Option (List Char))
    (m : Int) (content : List Char) (hc : fs (posixBasename name) = some content) :
    (∃ c, csv_preview fs name delim m
        = Except.ok (previewBody (posixBasename name) [c] c content m)) ∨
    csv_preview fs name delim m = Except.error PreviewError.detectionError ∨
    csv_preview fs name delim m = Except.error PreviewError.badDelimiter := by
  rcases delim with _ | d
  · simp only [csv_preview, hc]
    rcases hs : sniff (content.take 8192) with _ | c
    · right; left; rfl
    · left; exact ⟨c, rfl⟩
  · rcases d with _ | ⟨c, d2⟩
    · simp only [csv_preview, hc]
      rcases hs : sniff (content.take 8192) with _ | c
      · right; left; rfl
      · left; exact ⟨c, rfl⟩
    · rcases d2 with _ | ⟨c2, d3⟩
      · left
        refine ⟨c, ?_⟩
        simp only [csv_preview, hc]
      · right; right
        simp only [csv_preview, hc]

/-! ## Claims -/

/-- C1: uploading under label `"csv"` a file named `"My Data.csv"` with content
`"a,b\n1,2\n3,4\n"` yields stored name `"csv__My_Data.csv"` and size 12, and
previewing that stored name with `maxLines = 10` and no explicit delimiter
returns delimiter `","`, headers `["a","b"]`, rows `[["1","2"],["3","4"]]`,
and rowCount 2. -/
theorem upload_preview_scenario :
    demoSave.2.stored_as = demoStored ∧
    demoSave.2.size = 12 ∧
    csv_preview demoSave.1 demoStored none 10 = Except.ok demoResponse :=
  ⟨by decide, by decide, by rfl⟩

/-- C2 fails as stated: the stored name for label `"csv"` and original
filename `".."` is `"csv__.."`, which contains the parent-directory sequence
`".."` (`os.path.basename ".."` is `".."` itself). -/
theorem storedName_dotdot_cex :
    (save Fs.empty demoLabel ['.', '.'] []).2.stored_as
      = ['c', 's', 'v', '_', '_', '.', '.'] ∧
    hasDotDot (save Fs.empty demoLabel ['.', '.'] []).2.stored_as = true := by
  decide

/-- C2 amended: for every label containing no separator (the code only ever
passes `"spec"` and `"csv"`) and every caller-supplied original filename, the
stored name is a pure function of `(label, originalFilename)` — independent of
the directory state and of the content — contains no `'/'`, and does not start
with `'/'`, so it names a single path component inside the content directory;
it may however contain `".."` as a substring. -/
theorem storedName_no_separator (fs fs' : Fs) (label fname content content' : List Char)
    (hl : '/' ∉ label) :
    '/' ∉ (save fs label fname content).2.stored_as ∧
    ((save fs label fname content).2.stored_as).head? ≠ some '/' ∧
    (save fs label fname content).2.stored_as = (save fs' label fname content').2.stored_as := by
  have hmem : '/' ∉ (save fs label fname content).2.stored_as := by
    intro h
    rw [save] at h
    simp only [List.mem_append, List.mem_cons] at h
    rcases h with h | h | h | h
    · exact hl h
    · exact absurd h (by decide)
    · exact absurd h (by decide)
    · exact slash_not_mem_posixBasename _ (slash_mem_of_mem_replaceSpaces _ h)
  refine ⟨hmem, ?_, rfl⟩
  intro h
  have : '/' ∈ (save fs label fname content).2.stored_as := by
    rcases heq : (save fs label fname content).2.stored_as with _ | ⟨a, t⟩
    · rw [heq] at h; simp at h
    · rw [heq] at h
      simp only [List.head?_cons, Option.some.injEq] at h
      rw [h]
      exact List.mem_cons_self _ _
  exact hmem this

/-- Witness for C2 amended, at label `"csv"` and the adversarial filename
`"../../etc/passwd"`. -/
theorem storedName_no_separator_witness :
    '/' ∉ demoLabel ∧
    ('/' ∉ (save Fs.empty demoLabel "../../etc/passwd".toList []).2.stored_as ∧
     ((save Fs.empty demoLabel "../../etc/passwd".toList []).2.stored_as).head? ≠ some '/' ∧
     (save Fs.empty demoLabel "../../etc/passwd".toList []).2.stored_as
       = (save (Fs.write Fs.empty ['x'] ['y']) demoLabel "../../etc/passwd".toList ['z']).2.stored_as) :=
  ⟨by decide,
   storedName_no_separator Fs.empty (Fs.write Fs.empty ['x'] ['y']) demoLabel
     "../../etc/passwd".toList [] ['z'] (by decide)⟩

/-- C3 fails as stated: for label `"csv"` and original filename `"foo/"` (whose
final path segment is empty) the code substitutes the label only when the
*whole* filename is empty, before taking the basename — so it stores under
`"csv__"`, not under `"csv__csv"` as the claimed order (basename first, label
fallback second) would give. -/
theorem sanitize_order_cex :
    (save Fs.empty demoLabel ['f', 'o', 'o', '/'] []).2.stored_as
      = ['c', 's', 'v', '_', '_'] ∧
    specSanitize demoLabel ['f', 'o', 'o', '/'] = ['c', 's', 'v'] ∧
    (save Fs.empty demoLabel ['f', 'o', 'o', '/'] []).2.stored_as
      ≠ demoLabel ++ '_' :: '_' :: specSanitize demoLabel ['f', 'o', 'o', '/'] := by
  decide

/-- C3 amended: the label is substituted for the original filename only when
the filename is empty, *before* the final path segment is taken; then spaces
become underscores, and the stored name is `label ++ "__" ++ sanitized`.
Consequently a non-empty filename whose final path segment is empty (one
ending in a separator) sanitizes to the empty string, storing under
`label ++ "__"` — not to the label. -/
theorem sanitize_label_first (fs : Fs) (label fname content : List Char)
    (h : fname ≠ []) :
    (save fs label fname content).2.stored_as
      = label ++ '_' :: '_' :: replaceSpaces (posixBasename fname) ∧
    (save fs label [] content).2.stored_as
      = label ++ '_' :: '_' :: replaceSpaces (posixBasename label) ∧
    (∀ q, fname = q ++ ['/'] →
      (save fs label fname content).2.stored_as = label ++ ['_', '_']) := by
  refine ⟨?_, ?_, ?_⟩
  · rw [save]
    simp only [if_neg h]
  · rw [save]
    simp
  · intro q hq
    subst hq
    rw [save]
    simp only [if_neg h, posixBasename_append_slash, replaceSpaces, List.map_nil]

/-- Witness for C3 amended at filename `"foo/"` with label `"csv"`. -/
theorem sanitize_label_first_witness :
    ['f', 'o', 'o', '/'] ≠ ([] : List Char) ∧
    ((save Fs.empty demoLabel ['f', 'o', 'o', '/'] []).2.stored_as
        = demoLabel ++ '_' :: '_' :: replaceSpaces (posixBasename ['f', 'o', 'o', '/']) ∧
     (save Fs.empty demoLabel [] []).2.stored_as
        = demoLabel ++ '_' :: '_' :: replaceSpaces (posixBasename demoLabel) ∧
     (∀ q, ['f', 'o', 'o', '/'] = q ++ ['/'] →
        (save Fs.empty demoLabel ['f', 'o', 'o', '/'] []).2.stored_as = demoLabel ++ ['_', '_'])) :=
  ⟨by decide, sanitize_label_first Fs.empty demoLabel ['f', 'o', 'o', '/'] [] (by decide)⟩

/-- C4: with an explicitly supplied, non-empty delimiter (an empty string is
treated as an absent field, cf. the C10 theorem), preview never fails with the
sniffer's detection error for any stored file; and on a completely empty file
with a (one-character) explicit delimiter it returns empty headers, empty
rows, and row count 0 instead of failing. -/
theorem explicit_delimiter_no_detection (fs : Fs) (name d : List Char) (m : Int)
    (hd : d ≠ []) :
    csv_preview fs name (some d) m ≠ Except.error PreviewError.detectionError ∧
    (∀ c, d = [c] → fs (posixBasename name) = some [] →
      csv_preview fs name (some d) m
        = Except.ok { filename := posixBasename name, delimiter := d,
                      headers := [], rows := [], total_preview_rows := 0 }) := by
  obtain ⟨x, xs, rfl⟩ := List.exists_cons_of_ne_nil hd
  constructor
  · rcases hfs : fs (posixBasename name) with _ | content
    · simp only [csv_preview, hfs]
      intro h
      exact absurd (Except.error.inj h) (by decide)
    · rcases xs with _ | ⟨x2, xs2⟩
      · simp only [csv_preview, hfs]
        intro h
        exact Except.noConfusion h
      · simp only [csv_preview, hfs]
        intro h
        exact absurd (Except.error.inj h) (by decide)
  · intro c hdc hfs
    rw [List.cons.injEq] at hdc
    obtain ⟨rfl, rfl⟩ := hdc
    simp only [csv_preview, hfs]
    simp [previewBody, csvParse, csvParseAux]

/-- Witness for C4 with delimiter `","` and an empty stored file. -/
theorem explicit_delimiter_no_detection_witness :
    [','] ≠ ([] : List Char) ∧
    (csv_preview (Fs.write Fs.empty demoStored []) demoStored (some [',']) 10
        ≠ Except.error PreviewError.detectionError ∧
     (∀ c, [','] = [c] →
        (Fs.write Fs.empty demoStored []) (posixBasename demoStored) = some [] →
        csv_preview (Fs.write Fs.empty demoStored []) demoStored (some [',']) 10
          = Except.ok { filename := posixBasename demoStored, delimiter := [','],
                        headers := [], rows := [], total_preview_rows := 0 })) :=
  ⟨by decide,
   explicit_delimiter_no_detection (Fs.write Fs.empty demoStored []) demoStored [','] 10
     (by decide)⟩

/-- C5 fails as stated: previewing a completely empty stored file with no
delimiter does fail with the detection error, but that error is an uncaught
exception surfaced as HTTP 500 — a server error, not a client error. -/
theorem detection_error_cex :
    csv_preview (Fs.write Fs.empty demoStored []) demoStored none 10
      = Except.error PreviewError.detectionError ∧
    PreviewError.status PreviewError.detectionError = 500 ∧
    ¬ isClientError (PreviewError.status PreviewError.detectionError) :=
  ⟨by rfl, by rfl, by rw [PreviewError.status]; rw [isClientError]; omega⟩

/-- C5 amended: when no delimiter is supplied and the sniffer cannot infer one
from the 8 KiB sample (e.g. an empty file), preview fails with the detection
error rather than silently defaulting to some delimiter, and the error is
distinct from the not-found error; but it propagates as an unhandled
exception, surfaced to the caller as a server error (HTTP 500 with a generic
message), not as a client error with a descriptive message. -/
theorem detection_failure_is_server_error (fs : Fs) (name content : List Char)
    (m : Int) (hc : fs (posixBasename name) = some content)
    (hs : sniff (content.take 8192) = none) :
    csv_preview fs name none m = Except.error PreviewError.detectionError ∧
    PreviewError.detectionError ≠ PreviewError.notFound ∧
    PreviewError.status PreviewError.detectionError = 500 ∧
    ¬ isClientError (PreviewError.status PreviewError.detectionError) := by
  refine ⟨?_, by decide, by rfl, ?_⟩
  · simp only [csv_preview, hc, hs]
  · rw [PreviewError.status]; rw [isClientError]; omega

/-- Witness for C5 amended, at an empty stored file. -/
theorem detection_failure_is_server_error_witness :
    (Fs.write Fs.empty demoStored []) (posixBasename demoStored) = some [] ∧
    sniff (([] : List Char).take 8192) = none ∧
    (csv_preview (Fs.write Fs.empty demoStored []) demoStored none 10
        = Except.error PreviewError.detectionError ∧
     PreviewError.detectionError ≠ PreviewError.notFound ∧
     PreviewError.status PreviewError.detectionError = 500 ∧
     ¬ isClientError (PreviewError.status PreviewError.detectionError)) :=
  ⟨by rfl, by rfl,
   detection_failure_is_server_error (Fs.write Fs.empty demoStored []) demoStored [] 10
     (by rfl) (by rfl)⟩

/-- C6: whenever preview succeeds on a stored file, its rows are exactly the
first `maxLines` data records after the header record of the parse with the
delimiter reported in the response, so at most `maxLines` rows are collected
(`maxLines ≤ 0` collects none), and `total_preview_rows` is the number of rows
actually returned; in particular `maxLines = 0` gives no rows and row count 0
while the headers are unaffected. -/
theorem preview_row_limit (fs : Fs) (name : List Char) (delim : Option (List Char))
    (m : Int) (content : List Char) (r : PreviewResponse)
    (hc : fs (posixBasename name) = some content)
    (hr : csv_preview fs name delim m = Except.ok r) :
    r.total_preview_rows = r.rows.length ∧
    r.rows.length ≤ m.toNat ∧
    (∃ c, r.delimiter = [c] ∧
      r.headers = (csvParse c content).headD [] ∧
      r.rows = ((csvParse c content).drop 1).take m.toNat) ∧
    (m = 0 → r.rows = [] ∧ r.total_preview_rows = 0) := by
  rcases csv_preview_eq_cases fs name delim m content hc with ⟨c, hok⟩ | herr | herr
  · rw [hok] at hr
    have hbody : previewBody (posixBasename name) [c] c content m = r := Except.ok.inj hr
    subst hbody
    refine ⟨rfl, ?_, ⟨c, rfl, rfl, rfl⟩, ?_⟩
    · rw [previewBody]
      simp only [List.length_take]
      exact min_le_left _ _
    · intro hm
      subst hm
      rw [previewBody]
      simp
  · rw [herr] at hr; exact Except.noConfusion hr
  · rw [herr] at hr; exact Except.noConfusion hr

/-- Witness for C6 at the example upload, `maxLines = 10`. -/
theorem preview_row_limit_witness :
    demoSave.1 (posixBasename demoStored) = some demoContent ∧
    csv_preview demoSave.1 demoStored none 10 = Except.ok demoResponse ∧
    (demoResponse.total_preview_rows = demoResponse.rows.length ∧
     demoResponse.rows.length ≤ (10 : Int).toNat ∧
     (∃ c, demoResponse.delimiter = [c] ∧
       demoResponse.headers = (csvParse c demoContent).headD [] ∧
       demoResponse.rows = ((csvParse c demoContent).drop 1).take (10 : Int).toNat) ∧
     ((10 : Int) = 0 → demoResponse.rows = [] ∧ demoResponse.total_preview_rows = 0)) :=
  ⟨by rfl, by rfl,
   preview_row_limit demoSave.1 demoStored none 10 demoContent demoResponse
     (by rfl) (by rfl)⟩

/-- C7: uploading content `C` under label `L` (separator-free, as the code's
labels `"spec"` and `"csv"` are) and filename `F` stores exactly `C` under the
stored name, serves exactly `C` at the returned retrieval path, and reports
`size = len(C)`. -/
theorem upload_roundtrip (fs : Fs) (label fname content : List Char)
    (hl : '/' ∉ label) :
    (save fs label fname content).1 ((save fs label fname content).2.stored_as)
      = some content ∧
    serveFile (save fs label fname content).1 ((save fs label fname content).2.url)
      = some content ∧
    (save fs label fname content).2.size = content.length := by
  refine ⟨?_, ?_, rfl⟩
  · rw [save]
    simp [Fs.write]
  · rw [save, serveFile]
    simp only [Fs.write]
    rw [List.take_left' (by rfl), List.drop_left' (by rfl)]
    simp

/-- Witness for C7 at label `"csv"`, filename `"t.csv"`, content `"x"`. -/
theorem upload_roundtrip_witness :
    '/' ∉ demoLabel ∧
    ((save Fs.empty demoLabel "t.csv".toList ['x']).1
        ((save Fs.empty demoLabel "t.csv".toList ['x']).2.stored_as) = some ['x'] ∧
     serveFile (save Fs.empty demoLabel "t.csv".toList ['x']).1
        ((save Fs.empty demoLabel "t.csv".toList ['x']).2.url) = some ['x'] ∧
     (save Fs.empty demoLabel "t.csv".toList ['x']).2.size = (['x'] : List Char).length) :=
  ⟨by decide, upload_roundtrip Fs.empty demoLabel "t.csv".toList ['x'] (by decide)⟩

/-- C8: uploading twice with the same `(label, originalFilename)` produces the
same stored name both times and overwrites: afterwards the stored name maps to
the second content, and (for distinct contents) no longer to the first. -/
theorem upload_overwrite (fs : Fs) (label fname c1 c2 : List Char) :
    (save (save fs label fname c1).1 label fname c2).2.stored_as
      = (save fs label fname c1).2.stored_as ∧
    (save (save fs label fname c1).1 label fname c2).1
      ((save fs label fname c1).2.stored_as) = some c2 ∧
    (c1 ≠ c2 →
      (save (save fs label fname c1).1 label fname c2).1
        ((save fs label fname c1).2.stored_as) ≠ some c1) := by
  have hwrite : (save (save fs label fname c1).1 label fname c2).1
      ((save fs label fname c1).2.stored_as) = some c2 := by
    rw [save, save]
    simp [Fs.write]
  refine ⟨rfl, hwrite, ?_⟩
  intro hne h
  rw [hwrite] at h
  exact hne (Option.some.inj h).symm

/-- Witness for C8 at label `"csv"`, filename `"t.csv"`, contents `"x"` then
`"y"`. -/
theorem upload_overwrite_witness :
    (save (save Fs.empty demoLabel "t.csv".toList ['x']).1 demoLabel "t.csv".toList ['y']).2.stored_as
      = (save Fs.empty demoLabel "t.csv".toList ['x']).2.stored_as ∧
    (save (save Fs.empty demoLabel "t.csv".toList ['x']).1 demoLabel "t.csv".toList ['y']).1
      ((save Fs.empty demoLabel "t.csv".toList ['x']).2.stored_as) = some ['y'] ∧
    (save (save Fs.empty demoLabel "t.csv".toList ['x']).1 demoLabel "t.csv".toList ['y']).1
      ((save Fs.empty demoLabel "t.csv".toList ['x']).2.stored_as) ≠ some ['x'] :=
  ⟨(upload_overwrite Fs.empty demoLabel "t.csv".toList ['x'] ['y']).1,
   (upload_overwrite Fs.empty demoLabel "t.csv".toList ['x'] ['y']).2.1,
   (upload_overwrite Fs.empty demoLabel "t.csv".toList ['x'] ['y']).2.2 (by decide)⟩

/-- C9: preview resolves the requested stored name by its basename against the
content directory — the result is identical to requesting the basename — and
it fails with the 404 not-found error exactly when no file of that basename
exists, returning no preview result in that case. -/
theorem preview_basename_lookup (fs : Fs) (name : List Char)
    (delim : Option (List Char)) (m : Int) :
    csv_preview fs name delim m = csv_preview fs (posixBasename name) delim m ∧
    (csv_preview fs name delim m = Except.error PreviewError.notFound ↔
      fs (posixBasename name) = none) := by
  constructor
  · simp only [csv_preview, posixBasename_idem]
  · constructor
    · intro h
      rcases hfs : fs (posixBasename name) with _ | content
      · rfl
      · rcases csv_preview_eq_cases fs name delim m content hfs with ⟨c, hok⟩ | herr | herr
        · rw [hok] at h; exact Except.noConfusion h
        · rw [herr] at h; exact absurd (Except.error.inj h) (by decide)
        · rw [herr] at h; exact absurd (Except.error.inj h) (by decide)
    · intro h
      simp only [csv_preview, h]

/-- C10: a delimiter supplied as the empty string is treated exactly like an
absent delimiter — the preview is the same as with no delimiter field, and
when the sniffer infers a delimiter from the sample, the response reports that
sniffed delimiter. -/
theorem empty_delimiter_sniffs (fs : Fs) (name : List Char) (m : Int) :
    csv_preview fs name (some []) m = csv_preview fs name none m ∧
    (∀ content c, fs (posixBasename name) = some content →
      sniff (content.take 8192) = some c →
      ∃ r, csv_preview fs name (some []) m = Except.ok r ∧ r.delimiter = [c]) := by
  constructor
  · rfl
  · intro content c hc hs
    refine ⟨previewBody (posixBasename name) [c] c content m, ?_, rfl⟩
    simp only [csv_preview, hc, hs]

/-- Witness for C10 at the example upload, whose sample sniffs to `','`. -/
theorem empty_delimiter_sniffs_witness :
    csv_preview demoSave.1 demoStored (some []) 10 = csv_preview demoSave.1 demoStored none 10 ∧
    (demoSave.1 (posixBasename demoStored) = some demoContent ∧
     sniff (demoContent.take 8192) = some ',' ∧
     ∃ r, csv_preview demoSave.1 demoStored (some []) 10 = Except.ok r ∧ r.delimiter = [',']) :=
  ⟨(empty_delimiter_sniffs demoSave.1 demoStored 10).1,
   by rfl, by rfl,
   (empty_delimiter_sniffs demoSave.1 demoStored 10).2 demoContent ',' (by rfl) (by rfl)⟩
